import Mathlib

set_option autoImplicit false

/-!
Shallow embedding of the `exo` note-taking CLI (github.com/a-kostevski/exo).

The repository keeps several successive generations of the same note
abstractions side by side.  Each section below names the Go source file it
embeds:

* `Exo` root: shared machine model — calendar time (`Time`), the error
  taxonomy of the spec, an explicit filesystem state (`Fs`) with the `os`
  primitives used by the code, Go's `path/filepath` lexical `Clean`/`Join`
  (Unix separator), and `SanitizeFileName` from `pkg/fs/files.go` /
  `internal/utils/files.go`.
* `Exo.NoteC`: the dependency-injected generation — `pkg/note/note.go`
  (`BaseNote`, functional options, `NewBaseNote`, `updatePath`, `SetContent`,
  `Save`, `Load`, `Delete`, `Exists`, `ApplyTemplate`).
* `Exo.PeriodicC`: `pkg/periodic/periodic.go` and the daily-note file of the
  same package (`DailyNavigator`, `PeriodicNote`, `NewPeriodicNote`,
  `NewDailyNote`).
* `Exo.NoteB`: the middle generation — `pkg/note/base.go`,
  `pkg/note/storage.go` and `pkg/note/periodic.go` (validation-gated
  `Save`/`Load` overrides).  Its storage operations additionally log the
  sequence of storage-backend calls (`FsOp`) so "zero filesystem operations"
  is a provable statement.
* `Exo.NoteA`: the earliest generation — `internal/note/note.go` and
  `internal/note/period.go` (`PeriodicNote.SetTitle`).

Go mutates receivers through pointers and reports failures in a trailing
`error` result; methods are embedded as functions returning the updated
value together with an `Option`/`Except` error.  `time.Now()` becomes an
explicit `now : Time` argument.  Structured logging never changes behaviour
(spec §1) and is dropped.
-/

namespace Exo

/-- Calendar instant: the date part as a day index (days since the Unix
epoch) plus the time-of-day remainder, which `time.Time.AddDate` with zero
year/month deltas leaves untouched. -/
structure Time where
  day : Int
  clock : Int
deriving DecidableEq

/-- Go `t.AddDate(0, 0, n)`: shift the calendar date by `n` days, keeping
the clock time. -/
def Time.addDays (t : Time) (n : Int) : Time :=
  { t with day := t.day + n }

/-- Go `time.Time{}` (the zero instant), as used by `PreviousOrZero`. -/
def Time.zero : Time :=
  { day := 0, clock := 0 }

/-- The decimal digit character for `n < 10`. -/
def digitChar (n : Nat) : Char :=
  Char.ofNat (48 + n)

/-- Decimal digits of `n`, most significant first; `fuel` bounds the
recursion (any `fuel > log10 n` gives all digits). -/
def natDigitsAux : Nat → Nat → List Char
  | 0, _ => []
  | fuel + 1, n =>
    if n < 10 then [digitChar n]
    else natDigitsAux fuel (n / 10) ++ [digitChar (n % 10)]

/-- Decimal digits of `n`, most significant first. -/
def natDigits (n : Nat) : List Char :=
  natDigitsAux (n + 1) n

/-- Left-pad a digit string with `'0'` up to width `w`. -/
def padZeros (w : Nat) (l : List Char) : List Char :=
  List.replicate (w - l.length) '0' ++ l

/-- Signed decimal digits, zero-padded to width `w` (Go's `%0wd`). -/
def intDigits (w : Nat) (n : Int) : List Char :=
  if n < 0 then '-' :: padZeros w (natDigits (-n).toNat)
  else padZeros w (natDigits n.toNat)

/-- Proleptic-Gregorian date `(year, month, day)` of day-index `z`
(days since 1970-01-01); the civil-from-days algorithm. -/
def civilFromDays (z : Int) : Int × Nat × Nat :=
  let z' := z + 719468
  let era : Int := Int.fdiv z' 146097
  let doe : Nat := (z' - era * 146097).toNat
  let yoe : Nat := (doe - doe / 1460 + doe / 36524 - doe / 146096) / 365
  let doy : Nat := doe - (365 * yoe + yoe / 4 - yoe / 100)
  let mp : Nat := (5 * doy + 2) / 153
  let d : Nat := doy - (153 * mp + 2) / 5 + 1
  let m : Nat := if mp < 10 then mp + 3 else mp - 9
  let y : Int := yoe + era * 400 + (if m ≤ 2 then 1 else 0)
  (y, m, d)

/-- Go `date.Format("2006-01-02")`: zero-padded ISO date of the instant's
date part. -/
def Time.formatDate (t : Time) : String :=
  let (y, m, d) := civilFromDays t.day
  String.mk (intDigits 4 y ++ '-' :: intDigits 2 m ++ '-' :: intDigits 2 d)

/-- Error taxonomy of spec §7; Go wraps error causes with `fmt.Errorf`
(`%w`), which preserves the kind, so wrapping is modelled as the identity. -/
inductive NoteErr where
  | validation (msg : String)
  | notFound (path : String)
  | io (path : String)
  | template (msg : String)
  | cannotRename (msg : String)
deriving DecidableEq

/-- Whether an error is a `ValidationError`. -/
def NoteErr.isValidation : NoteErr → Bool
  | .validation _ => true
  | _ => false

/-- Whether an error is a `CannotRenameError`. -/
def NoteErr.isCannotRename : NoteErr → Bool
  | .cannotRename _ => true
  | _ => false

/-- Errors of the raw `os` layer; `notExist` is what `os.IsNotExist`
recognises, `permission` stands for every other I/O failure. -/
inductive IoErr where
  | notExist (path : String)
  | permission (path : String)
deriving DecidableEq

/-- Go `os.IsNotExist(err)`. -/
def IoErr.isNotExist : IoErr → Bool
  | .notExist _ => true
  | _ => false

/-- One call into the storage backend, recorded so that "performs zero
filesystem operations" is a statement about a call log. -/
inductive FsOp where
  | mkdirAll (dir : String)
  | write (path : String)
  | read (path : String)
  | stat (path : String)
  | remove (path : String)
deriving DecidableEq

/-- Filesystem state: the files on disk (path ↦ content) plus the sets of
paths on which the environment makes reads respectively writes fail with a
non-`notExist` error (permissions, disk full, …). -/
structure Fs where
  files : List (String × String)
  failReads : List String
  failWrites : List String
deriving DecidableEq

/-- Content of the file at `p`, if present. -/
def Fs.lookup (fs : Fs) (p : String) : Option String :=
  (fs.files.find? (fun kv => kv.1 == p)).map (fun kv => kv.2)

/-- Go `os.Stat(p)` succeeding, i.e. the file exists. -/
def osStat (fs : Fs) (p : String) : Bool :=
  (fs.lookup p).isSome

/-- Go `os.ReadFile`. -/
def osReadFile (fs : Fs) (p : String) : Except IoErr String :=
  if fs.failReads.contains p then .error (.permission p)
  else
    match fs.lookup p with
    | some c => .ok c
    | none => .error (.notExist p)

/-- Go `os.WriteFile` (create or truncate). -/
def osWriteFile (fs : Fs) (p content : String) : Except IoErr Fs :=
  if fs.failWrites.contains p then .error (.permission p)
  else .ok { fs with files := (p, content) :: fs.files.filter (fun kv => kv.1 != p) }

/-- Go `os.Remove`: fails with a not-exist error when the file is absent. -/
def osRemove (fs : Fs) (p : String) : Except IoErr Fs :=
  match fs.lookup p with
  | some _ => .ok { fs with files := fs.files.filter (fun kv => kv.1 != p) }
  | none => .error (.notExist p)

/-- Go `os.MkdirAll`: directories are not part of the observable state, so
creation always succeeds. -/
def osMkdirAll (fs : Fs) (_dir : String) : Except IoErr Fs :=
  .ok fs

/-- `FileExists` of `pkg/fs/files.go`: `os.Stat` succeeds (or reports
"already exists"). -/
def fsFileExists (fs : Fs) (p : String) : Bool :=
  osStat fs p

/-- Split a character list at `'/'` (the Unix separator). -/
def splitSlash : List Char → List (List Char)
  | [] => [[]]
  | c :: cs =>
    let r := splitSlash cs
    if c = '/' then [] :: r
    else
      match r with
      | [] => [[c]]
      | h :: t => (c :: h) :: t

/-- Whether the path is rooted (begins with the separator). -/
def isRooted : List Char → Bool
  | '/' :: _ => true
  | _ => false

/-- One step of `path.Clean`'s element processing: drop `..` together with
the preceding element, except at the root or at the head of a relative
path.  `acc` holds the kept elements in reverse. -/
def cleanStep (rooted : Bool) (acc : List (List Char)) (c : List Char) : List (List Char) :=
  if c = ['.', '.'] then
    match acc with
    | [] => if rooted then [] else [c]
    | a :: rest => if a = ['.', '.'] then c :: acc else rest
  else c :: acc

/-- Interleave path elements with the separator. -/
def joinComps : List (List Char) → List Char
  | [] => []
  | [c] => c
  | c :: cs => c ++ '/' :: joinComps cs

/-- Go `path/filepath.Clean` for the Unix separator: shortest lexically
equivalent path (collapse repeated separators, drop `.`, resolve `..`
lexically, `"."` for the empty result). -/
def Clean (path : String) : String :=
  if path = "" then "."
  else
    let cs := path.data
    let rooted := isRooted cs
    let comps := (splitSlash cs).filter (fun c => !c.isEmpty && c != ['.'])
    let out := (comps.foldl (cleanStep rooted) []).reverse
    let joined := joinComps out
    if rooted then String.mk ('/' :: joined)
    else if joined.isEmpty then "." else String.mk joined

/-- Join a non-empty tail of elements with the separator. -/
def interSlash : List String → String
  | [] => ""
  | [s] => s
  | s :: ss => s ++ "/" ++ interSlash ss

/-- Go `path/filepath.Join`: skip leading empty elements, join the rest
with the separator, `Clean` the result; all-empty input gives `""`. -/
def Join : List String → String
  | [] => ""
  | e :: es => if e = "" then Join es else Clean (interSlash (e :: es))

/-- Prefix of the path up to and including its last separator. -/
def upToLastSlash : List Char → List Char
  | [] => []
  | c :: cs =>
    let r := upToLastSlash cs
    if r.isEmpty then (if c = '/' then ['/'] else []) else c :: r

/-- Go `path/filepath.Dir`: everything before the final element, cleaned. -/
def Dir (path : String) : String :=
  Clean (String.mk (upToLastSlash path.data))

/-- Go `strings.ReplaceAll(s, " ", "-")`, per character. -/
def spaceToDash (c : Char) : Char :=
  if c = ' ' then '-' else c

/-- The character class kept by the regex `[^a-zA-Z0-9\-]` replacement:
ASCII letters, digits and the dash survive. -/
def isFileNameKeep (c : Char) : Bool :=
  (65 ≤ c.toNat && c.toNat ≤ 90) || (97 ≤ c.toNat && c.toNat ≤ 122) ||
    (48 ≤ c.toNat && c.toNat ≤ 57) || c.toNat == 45

/-- Go `strings.ToLower` restricted to the ASCII range its input is known
to lie in after the regex filter: map `A`–`Z` to `a`–`z`. -/
def toLowerASCII (c : Char) : Char :=
  if 65 ≤ c.toNat ∧ c.toNat ≤ 90 then Char.ofNat (c.toNat + 32) else c

/-- `SanitizeFileName` on the character list: spaces to dashes, drop
everything outside `[a-zA-Z0-9-]`, lowercase. -/
def sanitizeFileNameList (l : List Char) : List Char :=
  ((l.map spaceToDash).filter isFileNameKeep).map toLowerASCII

/-- `SanitizeFileName` of `pkg/fs/files.go` / `internal/utils/files.go`. -/
def SanitizeFileName (s : String) : String :=
  String.mk (sanitizeFileNameList s.data)

/-- The output character class of `SanitizeFileName`: lowercase ASCII
letters, digits and the dash. -/
def isSanitizedChar (c : Char) : Prop :=
  (97 ≤ c.toNat ∧ c.toNat ≤ 122) ∨ (48 ≤ c.toNat ∧ c.toNat ≤ 57) ∨ c.toNat = 45

instance (c : Char) : Decidable (isSanitizedChar c) := by
  unfold isSanitizedChar
  infer_instance

/-- Template data: the `map[string]interface{}` values the daily constructor
feeds the renderer are all strings. -/
def TData := List (String × String)

/-- The `templates.TemplateManager` collaborator, reduced to its
`ProcessTemplate(name, data)` entry point: rendered text or an error. -/
def TemplateManager := String → TData → Except String String

/-- Directory section of the resolved configuration (`config.Config.Dir`). -/
structure DirConfig where
  dataHome : String

/-- Resolved configuration, reduced to the fields the note core reads. -/
structure Config where
  dir : DirConfig

namespace NoteC

/-- `BaseNote` of `pkg/note/note.go`: core attributes plus the injected
dependencies `Config` and `TM` (the `FS` dependency is the ambient `Fs`
state; the logger is behaviour-free). -/
structure BaseNote where
  id : String
  title : String
  content : String
  path : String
  fileName : String
  subDir : String
  templateName : String
  created : Time
  modified : Time
  config : Config
  tm : TemplateManager

/-- The functional options exported by `pkg/note/note.go`. -/
inductive NoteOption where
  | withSubDir (subDir : String)
  | withFileName (fileName : String)
  | withTemplateName (templateName : String)
  | withContent (content : String)
deriving DecidableEq

/-- Whether an option is `WithSubDir`. -/
def NoteOption.isWithSubDir : NoteOption → Bool
  | .withSubDir _ => true
  | _ => false

/-- Whether an option is `WithFileName`. -/
def NoteOption.isWithFileName : NoteOption → Bool
  | .withFileName _ => true
  | _ => false

/-- Apply one functional option (each closure in `pkg/note/note.go` rejects
the empty string, except `WithContent`). -/
def NoteOption.apply (n : BaseNote) : NoteOption → Except NoteErr BaseNote
  | .withSubDir s =>
    if s = "" then .error (.validation "subdirectory cannot be empty")
    else .ok { n with subDir := s }
  | .withFileName s =>
    if s = "" then .error (.validation "filename cannot be empty")
    else .ok { n with fileName := s }
  | .withTemplateName s =>
    if s = "" then .error (.validation "template name cannot be empty")
    else .ok { n with templateName := s }
  | .withContent s => .ok { n with content := s }

/-- The option loop of `NewBaseNote`: first failing option aborts. -/
def applyOpts (n : BaseNote) : List NoteOption → Except NoteErr BaseNote
  | [] => .ok n
  | o :: os =>
    match o.apply n with
    | .error e => .error e
    | .ok n' => applyOpts n' os

/-- `updatePath` of `pkg/note/note.go`: `filepath.Join(DataHome, subDir,
fileName)` (the Go method always returns `nil`). -/
def BaseNote.updatePath (n : BaseNote) : BaseNote :=
  { n with path := Join [n.config.dir.dataHome, n.subDir, n.fileName] }

/-- `NewBaseNote` of `pkg/note/note.go`: reject an empty title, apply the
options, require both subdirectory and filename, then compute the path. -/
def NewBaseNote (title : String) (cfg : Config) (tm : TemplateManager) (now : Time)
    (opts : List NoteOption) : Except NoteErr BaseNote :=
  if title = "" then .error (.validation "title cannot be empty")
  else
    match applyOpts
      { id := "", title := title, content := "", path := "", fileName := "", subDir := ""
        templateName := "", created := now, modified := now, config := cfg, tm := tm } opts with
    | .error e => .error e
    | .ok n' =>
      if n'.subDir = "" ∨ n'.fileName = "" then
        .error (.validation "subdirectory and filename must be provided")
      else .ok n'.updatePath

/-- `SetContent`: store the content, refresh `modified`; always `nil`. -/
def BaseNote.setContent (n : BaseNote) (content : String) (now : Time) :
    BaseNote × Option NoteErr :=
  ({ n with content := content, modified := now }, none)

/-- `Exists`: `n.FS.FileExists(n.path)`. -/
def BaseNote.exists (n : BaseNote) (fs : Fs) : Bool :=
  osStat fs n.path

/-- `Save`: require a path, ensure the parent directory, `os.WriteFile`. -/
def BaseNote.save (n : BaseNote) (fs : Fs) : Option NoteErr × Fs :=
  if n.path = "" then (some (.validation "note path not set"), fs)
  else
    match osMkdirAll fs (Dir n.path) with
    | .error _ => (some (.io (Dir n.path)), fs)
    | .ok fs1 =>
      match osWriteFile fs1 n.path n.content with
      | .error _ => (some (.io n.path), fs1)
      | .ok fs2 => (none, fs2)

/-- `Load`: require a path, `os.ReadFile` into `content`. -/
def BaseNote.load (n : BaseNote) (fs : Fs) : Except NoteErr BaseNote :=
  if n.path = "" then .error (.validation "note path not set")
  else
    match osReadFile fs n.path with
    | .error (.notExist p) => .error (.notFound p)
    | .error (.permission p) => .error (.io p)
    | .ok c => .ok { n with content := c }

/-- `Delete` of `pkg/note/note.go:188`: require a path, then `os.Remove`,
wrapping every failure — including the not-exist error — into the returned
error. -/
def BaseNote.delete (n : BaseNote) (fs : Fs) : Option NoteErr × Fs :=
  if n.path = "" then (some (.validation "note path not set"), fs)
  else
    match osRemove fs n.path with
    | .error _ => (some (.io n.path), fs)
    | .ok fs' => (none, fs')

/-- `DeleteFile` of `pkg/fs/files.go:131`: `os.Remove`, but a not-exist
error is swallowed. -/
def DeleteFile (fs : Fs) (path : String) : Option NoteErr × Fs :=
  match osRemove fs path with
  | .error e => if e.isNotExist then (none, fs) else (some (.io path), fs)
  | .ok fs' => (none, fs')

/-- `ApplyTemplate`: require a template name, render through the injected
manager, store the result via `SetContent`. -/
def BaseNote.applyTemplate (n : BaseNote) (data : TData) (now : Time) :
    Except NoteErr BaseNote :=
  if n.templateName = "" then .error (.template "no template name set")
  else
    match n.tm n.templateName data with
    | .error e => .error (.template e)
    | .ok content => .ok (n.setContent content now).1

end NoteC

namespace PeriodicC

/-- The `PeriodNavigator` interface of `pkg/periodic/periodic.go` (also
declared identically in the other generations). -/
structure PeriodNavigator where
  next : Time → Time
  previous : Time → Time
  start : Time → Time
  end_ : Time → Time

/-- `DailyNavigator` of the daily-note file of `pkg/periodic`:
`AddDate(0, 0, ∓1)` for previous/next, the date itself for start/end. -/
def DailyNavigator : PeriodNavigator :=
  { next := fun date => date.addDays 1
    previous := fun date => date.addDays (-1)
    start := fun date => date
    end_ := fun date => date }

/-- `PeriodicNote` of `pkg/periodic/periodic.go`. -/
structure PeriodicNote where
  base : NoteC.BaseNote
  periodType : String
  date : Time
  navigator : Option PeriodNavigator

/-- `NewPeriodicNote`: default subdirectory `"periodic"` and filename
`title + ".md"`, overridable by the caller's options; period type defaults
to daily and the navigator starts unset. -/
def NewPeriodicNote (title : String) (date : Time) (cfg : Config) (tm : TemplateManager)
    (now : Time) (opts : List NoteC.NoteOption) : Except NoteErr PeriodicNote :=
  let defaultOpts : List NoteC.NoteOption :=
    [.withSubDir "periodic", .withFileName (title ++ ".md")]
  match NoteC.NewBaseNote title cfg tm now (defaultOpts ++ opts) with
  | .error e => .error e
  | .ok base => .ok { base := base, date := date, periodType := "daily", navigator := none }

/-- `Previous`: error when the navigator is unset. -/
def PeriodicNote.previous (p : PeriodicNote) : Except NoteErr Time :=
  match p.navigator with
  | none => .error (.validation "navigator is not set")
  | some nav => .ok (nav.previous p.date)

/-- `Next`: error when the navigator is unset. -/
def PeriodicNote.next (p : PeriodicNote) : Except NoteErr Time :=
  match p.navigator with
  | none => .error (.validation "navigator is not set")
  | some nav => .ok (nav.next p.date)

/-- `PreviousOrZero` of the daily-note file: previous period or the zero
instant. -/
def PeriodicNote.previousOrZero (p : PeriodicNote) : Time :=
  match p.previous with
  | .error _ => Time.zero
  | .ok t => t

/-- `NextOrZero` of the daily-note file. -/
def PeriodicNote.nextOrZero (p : PeriodicNote) : Time :=
  match p.next with
  | .error _ => Time.zero
  | .ok t => t

/-- `DailyNote`: wraps a `PeriodicNote`. -/
structure DailyNote where
  periodic : PeriodicNote

/-- The template data the daily constructor builds: the date (the title)
plus the previous/next period labels. -/
def DailyNote.templateData (d : DailyNote) (title : String) : TData :=
  [("Date", title), ("Previous", Time.formatDate d.periodic.previousOrZero),
    ("Next", Time.formatDate d.periodic.nextOrZero)]

/-- `NewDailyNote` of the daily-note file of `pkg/periodic`: build the
periodic note for the formatted date with subdirectory `"day"` and template
`"day"`, attach the `DailyNavigator`, then initialise (template + save) when
the file does not exist, or load it when it does; every failure aborts. -/
def NewDailyNote (date : Time) (cfg : Config) (tm : TemplateManager) (now : Time)
    (fs : Fs) : Except NoteErr DailyNote × Fs :=
  let title := Time.formatDate date
  let opts : List NoteC.NoteOption :=
    [.withSubDir "day", .withFileName (title ++ ".md"), .withTemplateName "day"]
  match NewPeriodicNote title date cfg tm now opts with
  | .error e => (.error e, fs)
  | .ok p =>
    let p : PeriodicNote := { p with navigator := some DailyNavigator }
    let daily : DailyNote := ⟨p⟩
    if !(daily.periodic.base.exists fs) then
      match daily.periodic.base.applyTemplate (daily.templateData title) now with
      | .error e => (.error e, fs)
      | .ok base1 =>
        let daily : DailyNote := ⟨{ p with base := base1 }⟩
        match daily.periodic.base.save fs with
        | (some e, fs') => (.error e, fs')
        | (none, fs') => (.ok daily, fs')
    else
      match daily.periodic.base.load fs with
      | .error e => (.error e, fs)
      | .ok base1 => (.ok ⟨{ p with base := base1 }⟩, fs)

end PeriodicC

namespace NoteB

/-- `BaseNote` of `pkg/note/base.go` (this generation reaches its
collaborators through package globals, so the struct carries data only). -/
structure BaseNote where
  id : String
  title : String
  content : String
  path : String
  fileName : String
  subDir : String
  templateName : String
  created : Time
  modified : Time
deriving DecidableEq

/-- `Validate` of `pkg/note/base.go:161`. -/
def BaseNote.validate (n : BaseNote) : Option NoteErr :=
  if n.title = "" then some (.validation "title is required")
  else if n.path = "" then some (.validation "path is required")
  else none

/-- `SetTitle` of `pkg/note/base.go:147`: reject the empty string, else
rename and refresh `modified`. -/
def BaseNote.setTitle (n : BaseNote) (title : String) (now : Time) :
    BaseNote × Option NoteErr :=
  if title = "" then (n, some (.validation "title cannot be empty"))
  else ({ n with title := title, modified := now }, none)

/-- `Save` of `pkg/note/storage.go:15`: require a path, `os.MkdirAll` on
the parent, `os.WriteFile`; the third component logs the storage calls. -/
def BaseNote.save (n : BaseNote) (fs : Fs) : Option NoteErr × Fs × List FsOp :=
  if n.path = "" then (some (.validation "note path not set"), fs, [])
  else
    match osMkdirAll fs (Dir n.path) with
    | .error _ => (some (.io (Dir n.path)), fs, [.mkdirAll (Dir n.path)])
    | .ok fs1 =>
      match osWriteFile fs1 n.path n.content with
      | .error _ => (some (.io n.path), fs1, [.mkdirAll (Dir n.path), .write n.path])
      | .ok fs2 => (none, fs2, [.mkdirAll (Dir n.path), .write n.path])

/-- `Load` of `pkg/note/storage.go:53`: require a path, `os.ReadFile` into
`content`; the filesystem itself is untouched, the log records the read. -/
def BaseNote.load (n : BaseNote) (fs : Fs) : BaseNote × Option NoteErr × List FsOp :=
  if n.path = "" then (n, some (.validation "note path not set"), [])
  else
    match osReadFile fs n.path with
    | .error (.notExist p) => (n, some (.notFound p), [.read n.path])
    | .error (.permission p) => (n, some (.io p), [.read n.path])
    | .ok c => ({ n with content := c }, none, [.read n.path])

/-- `PeriodicNote` of `pkg/note/periodic.go`. -/
structure PeriodicNote where
  base : BaseNote
  periodType : String
  date : Time
  navigator : Option PeriodicC.PeriodNavigator

/-- `Validate` of `pkg/note/periodic.go:106`: base validation, then the
navigator and the period type are required. -/
def PeriodicNote.validate (p : PeriodicNote) : Option NoteErr :=
  match p.base.validate with
  | some e => some e
  | none =>
    if p.navigator.isNone then some (.validation "navigator is required")
    else if p.periodType = "" then some (.validation "period type is required")
    else none

/-- `Save` of `pkg/note/periodic.go:167`: validate first — an invalid note
fails before any storage call — else delegate to `BaseNote.Save`. -/
def PeriodicNote.save (p : PeriodicNote) (fs : Fs) : Option NoteErr × Fs × List FsOp :=
  match p.validate with
  | some e => (some e, fs, [])
  | none => p.base.save fs

/-- `Load` of `pkg/note/periodic.go:201`: validate first — an invalid note
fails before any storage call — else check `fs.FileExists` and delegate to
`BaseNote.Load`. -/
def PeriodicNote.load (p : PeriodicNote) (fs : Fs) :
    PeriodicNote × Option NoteErr × List FsOp :=
  match p.validate with
  | some e => (p, some e, [])
  | none =>
    if !fsFileExists fs p.base.path then
      (p, some (.notFound p.base.path), [.stat p.base.path])
    else
      match p.base.load fs with
      | (b, e, tr) => ({ p with base := b }, e, .stat p.base.path :: tr)

end NoteB

namespace NoteA

/-- `BaseNote` of `internal/note/note.go` (the template manager dependency
is irrelevant to the embedded methods and is dropped). -/
structure BaseNote where
  id : String
  title : String
  content : String
  path : String
  templateName : String
  created : Time
  modified : Time
deriving DecidableEq

/-- `PeriodicNote` of `internal/note/period.go`. -/
structure PeriodicNote where
  base : BaseNote
  periodType : String
  date : Time
  navigator : Option PeriodicC.PeriodNavigator

/-- `SetTitle` of `internal/note/period.go:86`: a periodic note's title is
derived from its date, so renaming is rejected unconditionally and the
receiver is left untouched. -/
def PeriodicNote.setTitle (n : PeriodicNote) (_title : String) :
    PeriodicNote × Option NoteErr :=
  (n, some (.cannotRename "cannot change title of periodic note"))

end NoteA

/-! ## Theorems -/

/-- C4: for every date `d`, `DailyNavigator.Previous d` is `d` minus one
day, `Next d` is `d` plus one day, and `Start d` and `End d` are both `d`
itself. -/
theorem c4_dailyNavigator_navigation (d : Time) :
    PeriodicC.DailyNavigator.previous d = { d with day := d.day - 1 } ∧
    PeriodicC.DailyNavigator.next d = { d with day := d.day + 1 } ∧
    PeriodicC.DailyNavigator.start d = d ∧
    PeriodicC.DailyNavigator.end_ d = d := by
  refine ⟨?_, rfl, rfl, rfl⟩
  simp [PeriodicC.DailyNavigator, Time.addDays, sub_eq_add_neg]

/-- C5 (code bug): `BaseNote.Delete` of `pkg/note/note.go` wraps every
`os.Remove` failure, so deleting a note whose file does not exist returns
an error, although the repository's own storage helper
`fs.DeleteFile` — which the spec describes — swallows the not-exist error
and succeeds on the same state. -/
theorem c5_delete_nonexistent_file_returns_error :
    (NoteC.BaseNote.delete
        { id := "", title := "2025-01-01", content := "", path := "/data/day/2025-01-01.md",
          fileName := "2025-01-01.md", subDir := "day", templateName := "day",
          created := Time.zero, modified := Time.zero, config := ⟨⟨"/data"⟩⟩,
          tm := fun _ _ => .ok "" }
        ⟨[], [], []⟩).1 = some (.io "/data/day/2025-01-01.md") ∧
    (NoteC.DeleteFile ⟨[], [], []⟩ "/data/day/2025-01-01.md").1 = none := by
  exact ⟨rfl, rfl⟩

/-- C6: the title-setter of a periodic note rejects every rename — for any
argument it returns the cannot-rename error and leaves the note, in
particular its title, unchanged. -/
theorem c6_periodicNote_setTitle_rejects_rename (n : NoteA.PeriodicNote) (t : String) :
    (n.setTitle t).2 = some (.cannotRename "cannot change title of periodic note") ∧
    (n.setTitle t).1 = n ∧
    (n.setTitle t).1.base.title = n.base.title :=
  ⟨rfl, rfl, rfl⟩

/-- C7: `SetContent s` stores `s`, stamps `modified` with the current
time, never fails, and leaves every other field of the note unchanged; its
signature involves no filesystem state, so it performs no I/O. -/
theorem c7_setContent_updates_content_and_modified_only
    (n : NoteC.BaseNote) (s : String) (now : Time) :
    (n.setContent s now).2 = none ∧
    (n.setContent s now).1.content = s ∧
    (n.setContent s now).1.modified = now ∧
    (n.setContent s now).1.title = n.title ∧
    (n.setContent s now).1.path = n.path ∧
    (n.setContent s now).1.created = n.created ∧
    (n.setContent s now).1.templateName = n.templateName ∧
    (n.setContent s now).1.fileName = n.fileName ∧
    (n.setContent s now).1.subDir = n.subDir ∧
    (n.setContent s now).1.id = n.id :=
  ⟨rfl, rfl, rfl, rfl, rfl, rfl, rfl, rfl, rfl, rfl⟩

/-- C8: the resolved note path is exactly the platform join of data root,
subdirectory and filename, and path resolution is deterministic and
idempotent: recomputing it changes nothing. -/
theorem c8_updatePath_joins_and_idempotent (n : NoteC.BaseNote) :
    n.updatePath.path = Join [n.config.dir.dataHome, n.subDir, n.fileName] ∧
    n.updatePath.updatePath = n.updatePath :=
  ⟨rfl, rfl⟩

/-- A failing functional option always reports a validation error. -/
theorem applyOpt_error_isValidation (n : NoteC.BaseNote) (o : NoteC.NoteOption) (e : NoteErr)
    (h : o.apply n = .error e) : e.isValidation = true := by
  cases o with
  | withSubDir s =>
    by_cases hs : s = "" <;> simp [NoteC.NoteOption.apply, hs] at h
    subst h; rfl
  | withFileName s =>
    by_cases hs : s = "" <;> simp [NoteC.NoteOption.apply, hs] at h
    subst h; rfl
  | withTemplateName s =>
    by_cases hs : s = "" <;> simp [NoteC.NoteOption.apply, hs] at h
    subst h; rfl
  | withContent s => simp [NoteC.NoteOption.apply] at h

/-- A failing option loop always reports a validation error. -/
theorem applyOpts_error_isValidation :
    ∀ (opts : List NoteC.NoteOption) (n : NoteC.BaseNote) (e : NoteErr),
      NoteC.applyOpts n opts = .error e → e.isValidation = true := by
  intro opts
  induction opts with
  | nil => intro n e h; simp [NoteC.applyOpts] at h
  | cons o os ih =>
    intro n e h
    simp only [NoteC.applyOpts] at h
    cases ho : o.apply n with
    | error e' =>
      rw [ho] at h
      simp only [Except.error.injEq] at h
      subst h
      exact applyOpt_error_isValidation n o e' ho
    | ok n' =>
      rw [ho] at h
      exact ih n' e h

/-- Without a `WithSubDir` option the option loop leaves `subDir`
untouched. -/
theorem applyOpts_subDir_preserved :
    ∀ (opts : List NoteC.NoteOption) (n n' : NoteC.BaseNote),
      (∀ o ∈ opts, o.isWithSubDir = false) → NoteC.applyOpts n opts = .ok n' →
      n'.subDir = n.subDir := by
  intro opts
  induction opts with
  | nil =>
    intro n n' _ h
    simp only [NoteC.applyOpts, Except.ok.injEq] at h
    rw [← h]
  | cons o os ih =>
    intro n n' hall h
    simp only [NoteC.applyOpts] at h
    cases ho : o.apply n with
    | error e => rw [ho] at h; simp at h
    | ok m =>
      rw [ho] at h
      have hm : m.subDir = n.subDir := by
        have hno := hall o (List.mem_cons_self o os)
        cases o with
        | withSubDir s => simp [NoteC.NoteOption.isWithSubDir] at hno
        | withFileName s =>
          by_cases hs : s = "" <;> simp [NoteC.NoteOption.apply, hs] at ho
          rw [← ho]
        | withTemplateName s =>
          by_cases hs : s = "" <;> simp [NoteC.NoteOption.apply, hs] at ho
          rw [← ho]
        | withContent s =>
          simp only [NoteC.NoteOption.apply, Except.ok.injEq] at ho
          rw [← ho]
      rw [ih m n' (fun o' ho' => hall o' (List.mem_cons_of_mem o ho')) h, hm]

/-- Without a `WithFileName` option the option loop leaves `fileName`
untouched. -/
theorem applyOpts_fileName_preserved :
    ∀ (opts : List NoteC.NoteOption) (n n' : NoteC.BaseNote),
      (∀ o ∈ opts, o.isWithFileName = false) → NoteC.applyOpts n opts = .ok n' →
      n'.fileName = n.fileName := by
  intro opts
  induction opts with
  | nil =>
    intro n n' _ h
    simp only [NoteC.applyOpts, Except.ok.injEq] at h
    rw [← h]
  | cons o os ih =>
    intro n n' hall h
    simp only [NoteC.applyOpts] at h
    cases ho : o.apply n with
    | error e => rw [ho] at h; simp at h
    | ok m =>
      rw [ho] at h
      have hm : m.fileName = n.fileName := by
        have hno := hall o (List.mem_cons_self o os)
        cases o with
        | withFileName s => simp [NoteC.NoteOption.isWithFileName] at hno
        | withSubDir s =>
          by_cases hs : s = "" <;> simp [NoteC.NoteOption.apply, hs] at ho
          rw [← ho]
        | withTemplateName s =>
          by_cases hs : s = "" <;> simp [NoteC.NoteOption.apply, hs] at ho
          rw [← ho]
        | withContent s =>
          simp only [NoteC.NoteOption.apply, Except.ok.injEq] at ho
          rw [← ho]
      rw [ih m n' (fun o' ho' => hall o' (List.mem_cons_of_mem o ho')) h, hm]

/-- C3: constructing a note with an empty title fails with a validation
error, and constructing one with a non-empty title but without a
subdirectory or without a filename option also fails with a validation
error; in each case only an error — never a note — is returned. -/
theorem c3_newBaseNote_requires_identity (title : String) (cfg : Config)
    (tm : TemplateManager) (now : Time) (opts : List NoteC.NoteOption) :
    (∃ e, NoteC.NewBaseNote "" cfg tm now opts = .error e ∧ e.isValidation = true) ∧
    (title ≠ "" →
      ((∀ o ∈ opts, o.isWithSubDir = false) ∨ (∀ o ∈ opts, o.isWithFileName = false)) →
      ∃ e, NoteC.NewBaseNote title cfg tm now opts = .error e ∧ e.isValidation = true) := by
  constructor
  · exact ⟨.validation "title cannot be empty",
      by unfold NoteC.NewBaseNote; rw [if_pos rfl], rfl⟩
  · intro ht hopts
    unfold NoteC.NewBaseNote
    rw [if_neg ht]
    split
    case _ e he => exact ⟨e, rfl, applyOpts_error_isValidation _ _ _ he⟩
    case _ n' hn' =>
      have hsf : n'.subDir = "" ∨ n'.fileName = "" := by
        rcases hopts with h | h
        · exact Or.inl (applyOpts_subDir_preserved _ _ _ h hn')
        · exact Or.inr (applyOpts_fileName_preserved _ _ _ h hn')
      rw [if_pos hsf]
      exact ⟨_, rfl, rfl⟩

/-- C3 applied at a concrete construction: non-empty title `"x"` with only
a filename option (no subdirectory) fails with a validation error. -/
theorem c3_witness :
    ((("x" : String) ≠ "") ∧
      (∀ o ∈ [NoteC.NoteOption.withFileName "f.md"], o.isWithSubDir = false)) ∧
    (∃ e, NoteC.NewBaseNote "x" ⟨⟨"/data"⟩⟩ (fun _ _ => .ok "") Time.zero
        [NoteC.NoteOption.withFileName "f.md"] = .error e ∧ e.isValidation = true) :=
  ⟨⟨by decide, by decide⟩,
    (c3_newBaseNote_requires_identity "x" ⟨⟨"/data"⟩⟩ (fun _ _ => .ok "") Time.zero
        [NoteC.NoteOption.withFileName "f.md"]).2 (by decide) (Or.inl (by decide))⟩

/-- `BaseNote.Validate` of `pkg/note/base.go` only ever reports validation
errors. -/
theorem noteB_base_validate_isValidation (n : NoteB.BaseNote) (e : NoteErr)
    (h : n.validate = some e) : e.isValidation = true := by
  by_cases h1 : n.title = ""
  · simp only [NoteB.BaseNote.validate, if_pos h1, Option.some.injEq] at h
    subst h; rfl
  · by_cases h2 : n.path = ""
    · simp only [NoteB.BaseNote.validate, if_neg h1, if_pos h2, Option.some.injEq] at h
      subst h; rfl
    · simp [NoteB.BaseNote.validate, h1, h2] at h

/-- `PeriodicNote.Validate` of `pkg/note/periodic.go` only ever reports
validation errors. -/
theorem noteB_validate_isValidation (p : NoteB.PeriodicNote) (e : NoteErr)
    (h : p.validate = some e) : e.isValidation = true := by
  cases hb : p.base.validate with
  | some e' =>
    simp only [NoteB.PeriodicNote.validate, hb, Option.some.injEq] at h
    subst h
    exact noteB_base_validate_isValidation p.base e' hb
  | none =>
    by_cases hn : p.navigator.isNone = true
    · simp only [NoteB.PeriodicNote.validate, hb, if_pos hn, Option.some.injEq] at h
      subst h; rfl
    · by_cases hp : p.periodType = ""
      · simp only [NoteB.PeriodicNote.validate, hb, if_neg hn, if_pos hp,
          Option.some.injEq] at h
        subst h; rfl
      · simp [NoteB.PeriodicNote.validate, hb, hn, hp] at h

/-- C2: when validation of a periodic note fails — in particular when the
navigator is unset — `Save` and `Load` both return the validation error,
leave the filesystem untouched, perform zero storage-backend calls (empty
call log) and leave the note unchanged; when validation passes, `Save`
delegates to the base implementation, and `Load` delegates to the base
implementation after its existence probe. -/
theorem c2_periodicNote_validation_gating (p : NoteB.PeriodicNote) (fs : Fs) :
    (∀ e, p.validate = some e →
      p.save fs = (some e, fs, []) ∧
      p.load fs = (p, some e, []) ∧
      e.isValidation = true) ∧
    (p.validate = none →
      p.save fs = p.base.save fs ∧
      (fsFileExists fs p.base.path = true →
        p.load fs = ({ p with base := (p.base.load fs).1 }, (p.base.load fs).2.1,
          .stat p.base.path :: (p.base.load fs).2.2))) := by
  constructor
  · intro e he
    refine ⟨?_, ?_, noteB_validate_isValidation p e he⟩
    · simp [NoteB.PeriodicNote.save, he]
    · simp [NoteB.PeriodicNote.load, he]
  · intro hv
    constructor
    · simp [NoteB.PeriodicNote.save, hv]
    · intro hex
      rcases hl : p.base.load fs with ⟨b, etr⟩
      simp [NoteB.PeriodicNote.load, hv, hex, hl]

/-- C2 applied at a concrete navigator-less periodic note over a
filesystem that does hold the note's file: validation fails, both
operations return the validation error, and the storage call log is
empty. -/
theorem c2_witness :
    (NoteB.PeriodicNote.validate
        { base := { id := "", title := "t", content := "", path := "/p", fileName := "",
                    subDir := "", templateName := "", created := Time.zero,
                    modified := Time.zero },
          periodType := "daily", date := Time.zero, navigator := none } =
      some (.validation "navigator is required")) ∧
    (NoteB.PeriodicNote.save
        { base := { id := "", title := "t", content := "", path := "/p", fileName := "",
                    subDir := "", templateName := "", created := Time.zero,
                    modified := Time.zero },
          periodType := "daily", date := Time.zero, navigator := none }
        ⟨[("/p", "c")], [], []⟩ =
      (some (.validation "navigator is required"), ⟨[("/p", "c")], [], []⟩, []) ∧
     NoteB.PeriodicNote.load
        { base := { id := "", title := "t", content := "", path := "/p", fileName := "",
                    subDir := "", templateName := "", created := Time.zero,
                    modified := Time.zero },
          periodType := "daily", date := Time.zero, navigator := none }
        ⟨[("/p", "c")], [], []⟩ =
      ({ base := { id := "", title := "t", content := "", path := "/p", fileName := "",
                   subDir := "", templateName := "", created := Time.zero,
                   modified := Time.zero },
         periodType := "daily", date := Time.zero, navigator := none },
        some (.validation "navigator is required"), []) ∧
     (NoteErr.validation "navigator is required").isValidation = true) :=
  ⟨rfl,
    (c2_periodicNote_validation_gating
      { base := { id := "", title := "t", content := "", path := "/p", fileName := "",
                  subDir := "", templateName := "", created := Time.zero,
                  modified := Time.zero },
        periodType := "daily", date := Time.zero, navigator := none }
      ⟨[("/p", "c")], [], []⟩).1 (.validation "navigator is required") rfl⟩

/-- A string built from a non-empty character list is non-empty. -/
theorem mk_cons_ne_empty (c : Char) (l : List Char) : String.mk (c :: l) ≠ "" := by
  intro h
  have h2 : c :: l = ([] : List Char) := congrArg String.data h
  exact List.cons_ne_nil c l h2

/-- A string built from a list that is not empty is non-empty. -/
theorem mk_ne_empty_of_not_isEmpty {l : List Char} (h : l.isEmpty = false) :
    String.mk l ≠ "" := by
  cases l with
  | nil => simp at h
  | cons c t => exact mk_cons_ne_empty c t

/-- `Clean` never returns the empty string. -/
theorem Clean_ne_empty (s : String) : Clean s ≠ "" := by
  simp only [Clean]
  split
  · decide
  · split
    · exact mk_cons_ne_empty _ _
    · split
      · decide
      · next h => exact mk_ne_empty_of_not_isEmpty (by simpa using h)

/-- Joining a data root with the `"day"` subdirectory and a filename never
yields the empty string. -/
theorem Join_triple_ne_empty (a f : String) : Join [a, "day", f] ≠ "" := by
  by_cases ha : a = ""
  · have h : Join [a, "day", f] = Clean (interSlash ["day", f]) := by
      rw [ha]; simp [Join]
    rw [h]; exact Clean_ne_empty _
  · have h : Join [a, "day", f] = Clean (interSlash [a, "day", f]) := by
      simp [Join, ha]
    rw [h]; exact Clean_ne_empty _

/-- A formatted date is never the empty string. -/
theorem formatDate_ne_empty (t : Time) : Time.formatDate t ≠ "" := by
  unfold Time.formatDate
  rcases hcd : civilFromDays t.day with ⟨y, m, d⟩
  change String.mk ((intDigits 4 y ++ '-' :: intDigits 2 (m : Int)) ++
    '-' :: intDigits 2 (d : Int)) ≠ ""
  intro h
  have h2 : (intDigits 4 y ++ '-' :: intDigits 2 (m : Int)) ++
      '-' :: intDigits 2 (d : Int) = [] := congrArg String.data h
  rcases List.append_eq_nil.mp h2 with ⟨-, h3⟩
  exact List.cons_ne_nil _ _ h3

/-- Appending the `.md` extension never yields the empty string. -/
theorem append_md_ne_empty (s : String) : s ++ ".md" ≠ "" := by
  intro h
  have hl := congrArg String.length h
  rw [String.length_append] at hl
  have h1 : (".md" : String).length = 3 := rfl
  have h2 : ("" : String).length = 0 := rfl
  omega

/-- Looking up the path just written finds the written content. -/
theorem Fs.lookup_cons_self (l : List (String × String)) (fr fw : List String) (p c : String) :
    Fs.lookup ⟨(p, c) :: l, fr, fw⟩ p = some c := by
  simp [Fs.lookup, List.find?]

/-- The periodic-note construction performed by the daily constructor
always succeeds and produces exactly the note with the daily defaults
(subdirectory `"day"`, filename `<date>.md`, template `"day"`, path joined
from the data root). -/
theorem NewPeriodicNote_daily (date : Time) (cfg : Config) (tm : TemplateManager) (now : Time) :
    PeriodicC.NewPeriodicNote (Time.formatDate date) date cfg tm now
      [.withSubDir "day", .withFileName (Time.formatDate date ++ ".md"),
        .withTemplateName "day"] =
    .ok { base := { id := "", title := Time.formatDate date, content := "",
                    path := Join [cfg.dir.dataHome, "day", Time.formatDate date ++ ".md"],
                    fileName := Time.formatDate date ++ ".md", subDir := "day",
                    templateName := "day", created := now, modified := now,
                    config := cfg, tm := tm },
          periodType := "daily", date := date, navigator := none } := by
  have h1 : ¬(Time.formatDate date = "") := formatDate_ne_empty date
  have h2 : ¬(Time.formatDate date ++ ".md" = "") := append_md_ne_empty _
  simp [PeriodicC.NewPeriodicNote, NoteC.NewBaseNote, NoteC.applyOpts,
    NoteC.NoteOption.apply, NoteC.BaseNote.updatePath, h1, h2]

/-- C1: for a daily-note construction at the resolved path: when the path
does not exist, the template is rendered and saved, so afterwards the file
holds the rendered content, which is also the in-memory content; when the
path already holds content `c`, that content is loaded, the in-memory
content equals `c` and the filesystem — hence the template — is untouched;
a template error, a write failure, or a read failure each abort the
construction with an error, leaving the filesystem unchanged and returning
no note. -/
theorem c1_newDailyNote_initialize_or_load (date : Time) (cfg : Config)
    (tm : TemplateManager) (now : Time) (fs : Fs) (path : String) (data : TData)
    (hpath : path = Join [cfg.dir.dataHome, "day", Time.formatDate date ++ ".md"])
    (hdata : data = [("Date", Time.formatDate date),
      ("Previous", Time.formatDate (date.addDays (-1))),
      ("Next", Time.formatDate (date.addDays 1))]) :
    (osStat fs path = false →
      (∀ r, tm "day" data = .ok r → fs.failWrites.contains path = false →
        ∃ d fs', PeriodicC.NewDailyNote date cfg tm now fs = (.ok d, fs') ∧
          d.periodic.base.content = r ∧ fs'.lookup path = some r) ∧
      (∀ e, tm "day" data = .error e →
        PeriodicC.NewDailyNote date cfg tm now fs = (.error (.template e), fs)) ∧
      (∀ r, tm "day" data = .ok r → fs.failWrites.contains path = true →
        PeriodicC.NewDailyNote date cfg tm now fs = (.error (.io path), fs))) ∧
    (∀ c, fs.lookup path = some c → fs.failReads.contains path = false →
      ∃ d, PeriodicC.NewDailyNote date cfg tm now fs = (.ok d, fs) ∧
        d.periodic.base.content = c) ∧
    (osStat fs path = true → fs.failReads.contains path = true →
      PeriodicC.NewDailyNote date cfg tm now fs = (.error (.io path), fs)) := by
  subst hpath
  subst hdata
  have hcons := NewPeriodicNote_daily date cfg tm now
  have hPne : ¬(Join [cfg.dir.dataHome, "day", Time.formatDate date ++ ".md"] = "") :=
    Join_triple_ne_empty _ _
  refine ⟨fun hstat => ⟨?_, ?_, ?_⟩, ?_, ?_⟩
  · intro r htm hw
    have hw' : Join [cfg.dir.dataHome, "day", Time.formatDate date ++ ".md"] ∉
        fs.failWrites := by simpa using hw
    simp only [PeriodicC.NewDailyNote, hcons]
    simp [NoteC.BaseNote.exists, hstat, NoteC.BaseNote.applyTemplate,
      PeriodicC.DailyNote.templateData, PeriodicC.PeriodicNote.previousOrZero,
      PeriodicC.PeriodicNote.nextOrZero, PeriodicC.PeriodicNote.previous,
      PeriodicC.PeriodicNote.next, PeriodicC.DailyNavigator, NoteC.BaseNote.setContent,
      htm, NoteC.BaseNote.save, osMkdirAll, osWriteFile, hw', hPne]
    exact ⟨_, _, ⟨rfl, rfl⟩, rfl, Fs.lookup_cons_self _ _ _ _ _⟩
  · intro e hte
    simp only [PeriodicC.NewDailyNote, hcons]
    simp [NoteC.BaseNote.exists, hstat, NoteC.BaseNote.applyTemplate,
      PeriodicC.DailyNote.templateData, PeriodicC.PeriodicNote.previousOrZero,
      PeriodicC.PeriodicNote.nextOrZero, PeriodicC.PeriodicNote.previous,
      PeriodicC.PeriodicNote.next, PeriodicC.DailyNavigator, NoteC.BaseNote.setContent, hte]
  · intro r htm hw
    have hw' : Join [cfg.dir.dataHome, "day", Time.formatDate date ++ ".md"] ∈
        fs.failWrites := by simpa using hw
    simp only [PeriodicC.NewDailyNote, hcons]
    simp [NoteC.BaseNote.exists, hstat, NoteC.BaseNote.applyTemplate,
      PeriodicC.DailyNote.templateData, PeriodicC.PeriodicNote.previousOrZero,
      PeriodicC.PeriodicNote.nextOrZero, PeriodicC.PeriodicNote.previous,
      PeriodicC.PeriodicNote.next, PeriodicC.DailyNavigator, NoteC.BaseNote.setContent,
      htm, NoteC.BaseNote.save, osMkdirAll, osWriteFile, hw', hPne]
  · intro c hlk hr
    have hstat : osStat fs (Join [cfg.dir.dataHome, "day",
        Time.formatDate date ++ ".md"]) = true := by simp [osStat, hlk]
    have hr' : Join [cfg.dir.dataHome, "day", Time.formatDate date ++ ".md"] ∉
        fs.failReads := by simpa using hr
    simp only [PeriodicC.NewDailyNote, hcons]
    simp [NoteC.BaseNote.exists, hstat, NoteC.BaseNote.load, osReadFile, hr', hlk, hPne]
  · intro hstat hr
    have hr' : Join [cfg.dir.dataHome, "day", Time.formatDate date ++ ".md"] ∈
        fs.failReads := by simpa using hr
    simp only [PeriodicC.NewDailyNote, hcons]
    simp [NoteC.BaseNote.exists, hstat, NoteC.BaseNote.load, osReadFile, hr', hPne]

/-- C1 applied at a concrete construction over an empty filesystem: the
path does not exist, the renderer succeeds, and the constructed daily note
holds the rendered content, which is also on disk afterwards. -/
theorem c1_witness :
    ("/data/day/1970-01-01.md" =
        Join ["/data", "day", Time.formatDate ⟨0, 0⟩ ++ ".md"]) ∧
    (osStat ⟨[], [], []⟩ "/data/day/1970-01-01.md" = false) ∧
    (∃ d fs', PeriodicC.NewDailyNote ⟨0, 0⟩ ⟨⟨"/data"⟩⟩
        (fun _ _ => .ok "RENDERED") ⟨0, 0⟩ ⟨[], [], []⟩ = (.ok d, fs') ∧
      d.periodic.base.content = "RENDERED" ∧
      Fs.lookup fs' "/data/day/1970-01-01.md" = some "RENDERED") :=
  ⟨by decide, rfl,
    ((c1_newDailyNote_initialize_or_load ⟨0, 0⟩ ⟨⟨"/data"⟩⟩
        (fun _ _ => .ok "RENDERED") ⟨0, 0⟩ ⟨[], [], []⟩
        "/data/day/1970-01-01.md" _ (by decide) rfl).1 rfl).1 "RENDERED" rfl rfl⟩

/-- `Char.ofNat` of a valid code point round-trips through `toNat`. -/
theorem toNat_ofNat_valid {n : Nat} (h : n.isValidChar) : (Char.ofNat n).toNat = n := by
  unfold Char.ofNat
  rw [dif_pos h]
  rfl

/-- A character surviving the regex filter is mapped by the lowercase step
into the sanitized output class. -/
theorem sanitize_keep_lower {c : Char} (h : isFileNameKeep c = true) :
    isSanitizedChar (toLowerASCII c) := by
  simp only [isFileNameKeep, Bool.or_eq_true, Bool.and_eq_true, decide_eq_true_eq,
    beq_iff_eq] at h
  unfold toLowerASCII
  rcases h with ((⟨h1, h2⟩ | h) | h) | h
  · rw [if_pos ⟨h1, h2⟩]
    have hv : (c.toNat + 32).isValidChar := Or.inl (by omega)
    unfold isSanitizedChar
    rw [toNat_ofNat_valid hv]
    omega
  · rw [if_neg (by omega)]
    unfold isSanitizedChar
    omega
  · rw [if_neg (by omega)]
    unfold isSanitizedChar
    omega
  · rw [if_neg (by omega)]
    unfold isSanitizedChar
    omega

/-- Sanitized-class characters are fixed points of all three sanitizing
steps. -/
theorem sanitized_fixed {c : Char} (h : isSanitizedChar c) :
    spaceToDash c = c ∧ isFileNameKeep c = true ∧ toLowerASCII c = c := by
  unfold isSanitizedChar at h
  refine ⟨?_, ?_, ?_⟩
  · unfold spaceToDash
    rw [if_neg]
    intro hc
    subst hc
    revert h
    decide
  · simp only [isFileNameKeep, Bool.or_eq_true, Bool.and_eq_true, decide_eq_true_eq,
      beq_iff_eq]
    omega
  · unfold toLowerASCII
    rw [if_neg (by omega)]

/-- Every character of a sanitized list lies in the sanitized class. -/
theorem mem_sanitizeFileNameList {l : List Char} {c : Char}
    (h : c ∈ sanitizeFileNameList l) : isSanitizedChar c := by
  unfold sanitizeFileNameList at h
  rcases List.mem_map.1 h with ⟨d, hd, rfl⟩
  exact sanitize_keep_lower (List.mem_filter.1 hd).2

/-- A list of sanitized-class characters is a fixed point of the
sanitizing pass. -/
theorem sanitizeFileNameList_fixed :
    ∀ l : List Char, (∀ c ∈ l, isSanitizedChar c) → sanitizeFileNameList l = l := by
  intro l
  induction l with
  | nil => intro _; rfl
  | cons c t ih =>
    intro h
    obtain ⟨h1, h2, h3⟩ := sanitized_fixed (h c (List.mem_cons_self c t))
    have ht := ih (fun d hd => h d (List.mem_cons_of_mem c hd))
    simp only [sanitizeFileNameList, List.map_cons] at ht ⊢
    rw [h1, List.filter_cons_of_pos h2, List.map_cons, h3, ht]

/-- C10: `SanitizeFileName` emits only lowercase ASCII letters, digits and
dashes, and it is idempotent: sanitizing a second time changes nothing. -/
theorem c10_sanitizeFileName_charset_and_idempotent (s : String) :
    (∀ c ∈ (SanitizeFileName s).data, isSanitizedChar c) ∧
    SanitizeFileName (SanitizeFileName s) = SanitizeFileName s := by
  constructor
  · intro c hc
    exact mem_sanitizeFileNameList hc
  · exact congrArg String.mk
      (sanitizeFileNameList_fixed _ (fun c hc => mem_sanitizeFileNameList hc))

/-- C10 applied at `"Hello World"`: the membership hypothesis is
discharged at the concrete character `'h'` of the sanitized output. -/
theorem c10_witness :
    ('h' ∈ (SanitizeFileName "Hello World").data ∧ isSanitizedChar 'h') ∧
    SanitizeFileName (SanitizeFileName "Hello World") = SanitizeFileName "Hello World" :=
  ⟨⟨by decide, (c10_sanitizeFileName_charset_and_idempotent "Hello World").1 'h' (by decide)⟩,
    (c10_sanitizeFileName_charset_and_idempotent "Hello World").2⟩

end Exo
